import Mathlib

/-!
Shallow embedding of the concurrent core of the meme-bot repository
(image-generation race, credential cache, worker-pool dispatcher,
shutdown coordinator, Yandex Art polling loop), with theorems checking
the natural-language specification against it.

Each definition is translated from the Go source named in its doc
comment.  Concurrency is modelled by making each atomic program step a
constructor of an explicit step relation (interleavings are arbitrary
step sequences), or, for straight-line code, by a pure function over the
sequence of events the code observes.
-/

namespace MemeBot

/-!
## The generation race

`ImageGenerationService.GenerateImage` (src/unnamed/part_009, first
revision): three provider goroutines (FusionBrain, YandexArt,
CloudflareAI) each send exactly one outcome — image bytes on an
unbuffered `resultChan` on success, a static error on an unbuffered
`errorChan` on failure.  The main loop runs `for i := 0; i < 3; i++`
over a two-case select (no `ctx.Done()` case), returns the first
success, and returns the aggregate error as soon as `len(errors) == 2`.
-/

/-- The outcome one provider attempt sends on the rendezvous channels:
`resultChan <- imageData` on success, `errorChan <- fmt.Errorf(...)`
(a static message, no wrapped `ctx.Err()`) on failure. -/
inductive ProviderEvent where
  | success (img : List Nat)
  | failure
deriving DecidableEq, Repr

/-- What the Go `GenerateImage` returns: `(imageData, nil)`,
`all image generation services failed`, or the
`unexpected error: no results received` fallback.  `blocked` marks the
select waiting forever because no further provider ever reports.
There is no cancellation-specific return: the function has no
`ctx.Done()` branch. -/
inductive RaceOutcome where
  | ok (img : List Nat)
  | allFailed
  | unexpected
  | blocked
deriving DecidableEq, Repr

/-- Number of provider goroutines spawned by `GenerateImage`
(FusionBrain, YandexArt, CloudflareAI; the first two fields are set
non-nil by `NewImageGenerationService`). -/
def numProviders : Nat := 3

/-- Capacity of `resultChan := make(chan []byte)`: unbuffered. -/
def resultChanCap : Nat := 0

/-- Capacity of `errorChan := make(chan error)`: unbuffered. -/
def errorChanCap : Nat := 0

/-- The `for i := 0; i < 3` select loop of `GenerateImage`, consuming
channel events in arrival order: a success returns immediately; a
failure is appended to `errors` and the loop returns the aggregate
error when `len(errors) == 2`. -/
def raceLoop : Nat → Nat → List ProviderEvent → RaceOutcome
  | 0, _, _ => RaceOutcome.unexpected
  | _ + 1, _, [] => RaceOutcome.blocked
  | n + 1, errs, e :: rest =>
    match e with
    | ProviderEvent.success img => RaceOutcome.ok img
    | ProviderEvent.failure =>
      if errs + 1 = 2 then RaceOutcome.allFailed else raceLoop n (errs + 1) rest

/-- The whole of `GenerateImage` as a function of the order in which the
provider outcomes become ready on the channels. -/
def generateImageRace (events : List ProviderEvent) : RaceOutcome :=
  raceLoop numProviders 0 events

/-- How many channel events the select loop receives before returning,
on the same arrival order (mirrors `raceLoop` branch for branch). -/
def raceConsumedAux : Nat → Nat → List ProviderEvent → Nat
  | 0, _, _ => 0
  | _ + 1, _, [] => 0
  | n + 1, errs, e :: rest =>
    match e with
    | ProviderEvent.success _ => 1
    | ProviderEvent.failure =>
      if errs + 1 = 2 then 1 else 1 + raceConsumedAux n (errs + 1) rest

/-- Events consumed by `GenerateImage` before it returns. -/
def raceConsumed (events : List ProviderEvent) : Nat :=
  raceConsumedAux numProviders 0 events

/-- Whether a provider outcome goes to `resultChan` (success) rather
than `errorChan` (failure). -/
def isSuccess : ProviderEvent → Bool
  | ProviderEvent.success _ => true
  | ProviderEvent.failure => false

/-- Attempt goroutines left blocked forever on their channel send after
the race returns: the unconsumed senders, minus any buffer space in the
channel each would send on.  After `GenerateImage` returns nothing ever
receives from either channel again, and both are unbuffered. -/
def blockedStragglers (events : List ProviderEvent) : Nat :=
  let leftover := events.drop (raceConsumed events)
  (leftover.countP isSuccess - resultChanCap) +
    (leftover.countP (fun e => !isSuccess e) - errorChanCap)

/-- Arrival order when `ctx` is cancelled before any provider succeeds:
each provider honours `ctx` for its own calls, fails, and its goroutine
sends the same static `"... generation failed"` error it sends on any
failure (the goroutines never wrap `ctx.Err()`). -/
def cancelledCtxEvents : List ProviderEvent :=
  [ProviderEvent.failure, ProviderEvent.failure, ProviderEvent.failure]

/-- Arrival order when every backend is genuinely broken: all three
providers fail. -/
def allBackendsBrokenEvents : List ProviderEvent :=
  [ProviderEvent.failure, ProviderEvent.failure, ProviderEvent.failure]

/-!
### C1 — first success must win
-/

/-- C1 (code bug): with three providers, if two failures arrive before a
provider that will succeed, `GenerateImage` resolves with the aggregate
`all image generation services failed` error even though the third
provider's success is still pending — the guard `len(errors) == 2` fires
one failure too early for three providers.  The claim (first success
wins whenever some provider succeeds) is the spec's intent; the loop
itself runs three iterations and ends in a fallback return that the
`== 2` guard makes unreachable. -/
theorem generateImageRace_error_despite_pending_success :
    generateImageRace
        [ProviderEvent.failure, ProviderEvent.failure,
          ProviderEvent.success [1, 2, 3]] =
      RaceOutcome.allFailed := by
  decide

/-!
### C2 — stragglers must be able to finish their sends
-/

/-- C2 (counterexample): when a success arrives first, the race returns
after consuming one of the three outcomes, and both straggler goroutines
stay blocked forever on their unbuffered channel sends — the claim that
no attempt goroutine remains blocked on a send is false. -/
theorem blockedStragglers_two_after_first_success :
    blockedStragglers
        [ProviderEvent.success [7], ProviderEvent.failure,
          ProviderEvent.failure] = 2 := by
  decide

/-- C2 (amended): the race never drains all three outcomes — it consumes
at most two events before returning (one ending in a success, two ending
in the aggregate error) — and since both channels are unbuffered, at
least one of the three attempt goroutines always remains blocked forever
on its channel send once all three providers report. -/
theorem raceConsumed_le_two_and_straggler_blocked (events : List ProviderEvent)
    (h : events.length = 3) :
    raceConsumed events ≤ 2 ∧ 1 ≤ blockedStragglers events := by
  match events, h with
  | [e1, e2, e3], _ =>
    cases e1 <;> cases e2 <;> cases e3 <;>
      simp [raceConsumed, raceConsumedAux, blockedStragglers, numProviders,
        resultChanCap, errorChanCap, isSuccess, List.countP, List.countP.go]

/-- C2 (witness): the amended statement at the all-failures arrival
order. -/
theorem raceConsumed_le_two_witness :
    raceConsumed
        [ProviderEvent.failure, ProviderEvent.failure, ProviderEvent.failure] ≤ 2 ∧
      1 ≤ blockedStragglers
        [ProviderEvent.failure, ProviderEvent.failure, ProviderEvent.failure] :=
  raceConsumed_le_two_and_straggler_blocked _ (by decide)

/-!
### C3 — cancellation must be distinguishable from aggregate failure
-/

/-- C3 (counterexample): the select loop has no `ctx.Done()` case and the
provider goroutines send the same static failure messages whether they
failed because `ctx` was cancelled or because the backend is broken, so
the cancelled-context run returns exactly the same aggregate
`allFailed` value as the all-backends-broken run: callers cannot tell
"timed out" apart from "all backends broken". -/
theorem generateImageRace_cancel_indistinguishable :
    generateImageRace cancelledCtxEvents = RaceOutcome.allFailed ∧
      generateImageRace allBackendsBrokenEvents = RaceOutcome.allFailed := by
  decide

/-- C3 (amended): if `ctx` is cancelled before any provider succeeds,
`GenerateImage` does not return a cancellation-specific error: it keeps
waiting on the rendezvous channels, and once the (ctx-honouring)
providers fail it returns the same aggregate `all image generation
services failed` error as when every backend is broken. -/
theorem generateImageRace_cancelled_returns_aggregate
    (events : List ProviderEvent)
    (hall : ∀ e ∈ events, e = ProviderEvent.failure)
    (hlen : 2 ≤ events.length) :
    generateImageRace events = RaceOutcome.allFailed := by
  match events, hlen with
  | e1 :: e2 :: rest, _ =>
    have h1 : e1 = ProviderEvent.failure := hall e1 (by simp)
    have h2 : e2 = ProviderEvent.failure := hall e2 (by simp)
    subst h1; subst h2
    simp [generateImageRace, raceLoop, numProviders]

/-- C3 (witness): the amended statement at the two-failure arrival
order. -/
theorem generateImageRace_cancelled_witness :
    generateImageRace [ProviderEvent.failure, ProviderEvent.failure] =
      RaceOutcome.allFailed :=
  generateImageRace_cancelled_returns_aggregate _ (by decide) (by decide)

/-!
## The credential cache

`YandexAuthServiceImpl` (src/internal/service/yandex_auth_service.go,
second revision — the one with the double-check):
`GetIAMToken` reads `s.token` under `RLock` and returns it when
non-empty, else calls `refreshToken`; `refreshToken` takes the
exclusive lock, re-checks `s.token != ""` (returning the cached value
without fetching), otherwise calls `RefreshIAMToken` and stores the
result; `refreshTokenPeriodically` calls `refreshToken` on every tick
of a 50-minute ticker and sets `s.token = ""` when it returns an error.

A `GetIAMToken` call is two atomic steps: the `RLock` read, and (when
the read saw an empty token) the whole locked `refreshToken` body,
which is atomic because the mutex is held throughout.  `fetched` is the
token `RefreshIAMToken` returns when it is actually invoked.
-/

/-- Where one concurrent `GetIAMToken` caller is: before its `RLock`
read, waiting for the exclusive lock in `refreshToken`, or returned
with a token value. -/
inductive CallerPhase where
  | start
  | needRefresh
  | done (result : String)
deriving DecidableEq, Repr

/-- The shared cache (`token` field, guarded by `mu`), the number of
`RefreshIAMToken` network fetches issued so far, and each caller's
phase. -/
structure AuthConfig where
  token : String
  fetchCount : Nat
  callers : List CallerPhase
deriving DecidableEq, Repr

/-- One atomic step of a `GetIAMToken` caller, from the source:
`readHit`/`readMiss` are the `RLock` read of `s.token`;
`lockHit` is the locked double-check `if s.token != ""` returning the
cached value with no fetch; `lockFetch` is the locked fetch-and-store
path (one `RefreshIAMToken` call, `s.token = newToken`). -/
inductive AuthStep (fetched : String) : AuthConfig → AuthConfig → Prop
  | readHit (s : AuthConfig) (i : Nat)
      (h : s.callers.get? i = some CallerPhase.start) (ht : s.token ≠ "") :
      AuthStep fetched s
        ⟨s.token, s.fetchCount, s.callers.set i (CallerPhase.done s.token)⟩
  | readMiss (s : AuthConfig) (i : Nat)
      (h : s.callers.get? i = some CallerPhase.start) (ht : s.token = "") :
      AuthStep fetched s
        ⟨s.token, s.fetchCount, s.callers.set i CallerPhase.needRefresh⟩
  | lockHit (s : AuthConfig) (i : Nat)
      (h : s.callers.get? i = some CallerPhase.needRefresh) (ht : s.token ≠ "") :
      AuthStep fetched s
        ⟨s.token, s.fetchCount, s.callers.set i (CallerPhase.done s.token)⟩
  | lockFetch (s : AuthConfig) (i : Nat)
      (h : s.callers.get? i = some CallerPhase.needRefresh) (ht : s.token = "") :
      AuthStep fetched s
        ⟨fetched, s.fetchCount + 1, s.callers.set i (CallerPhase.done fetched)⟩

/-- Any interleaving of the callers' atomic steps. -/
def AuthReach (fetched : String) : AuthConfig → AuthConfig → Prop :=
  Relation.ReflTransGen (AuthStep fetched)

/-- Cold cache with `M` concurrent `GetIAMToken` callers about to start. -/
def authInit (M : Nat) : AuthConfig :=
  ⟨"", 0, List.replicate M CallerPhase.start⟩

/-- Invariant of the cache under concurrent access: the token is empty
with no fetch issued, or equal to the fetched value with exactly one
fetch issued; every finished caller got the fetched value; and a caller
can only finish once the token is non-empty. -/
def AuthInv (fetched : String) (M : Nat) (s : AuthConfig) : Prop :=
  s.callers.length = M ∧
    ((s.token = "" ∧ s.fetchCount = 0) ∨ (s.token = fetched ∧ s.fetchCount = 1)) ∧
    (∀ r, CallerPhase.done r ∈ s.callers → r = fetched) ∧
    ((∃ r, CallerPhase.done r ∈ s.callers) → s.token ≠ "")

theorem authInv_step {fetched : String} (hf : fetched ≠ "") {M : Nat}
    {s1 s2 : AuthConfig} (hstep : AuthStep fetched s1 s2)
    (hinv : AuthInv fetched M s1) : AuthInv fetched M s2 := by
  obtain ⟨hlen, hdisj, hdone, hne⟩ := hinv
  cases hstep with
  | readHit i h ht =>
    have htf : s1.token = fetched := by
      rcases hdisj with ⟨h1, _⟩ | ⟨h2, _⟩
      · exact absurd h1 ht
      · exact h2
    refine ⟨by simpa using hlen, by simpa using hdisj, ?_, fun _ => ht⟩
    intro r hr
    rcases List.mem_or_eq_of_mem_set hr with hmem | heq
    · exact hdone r hmem
    · cases heq; exact htf
  | readMiss i h ht =>
    refine ⟨by simpa using hlen, by simpa using hdisj, ?_, ?_⟩
    · intro r hr
      rcases List.mem_or_eq_of_mem_set hr with hmem | heq
      · exact hdone r hmem
      · cases heq
    · rintro ⟨r, hr⟩
      rcases List.mem_or_eq_of_mem_set hr with hmem | heq
      · exact hne ⟨r, hmem⟩
      · cases heq
  | lockHit i h ht =>
    have htf : s1.token = fetched := by
      rcases hdisj with ⟨h1, _⟩ | ⟨h2, _⟩
      · exact absurd h1 ht
      · exact h2
    refine ⟨by simpa using hlen, by simpa using hdisj, ?_, fun _ => ht⟩
    intro r hr
    rcases List.mem_or_eq_of_mem_set hr with hmem | heq
    · exact hdone r hmem
    · cases heq; exact htf
  | lockFetch i h ht =>
    have hc0 : s1.fetchCount = 0 := by
      rcases hdisj with ⟨_, h1⟩ | ⟨h2, _⟩
      · exact h1
      · exact absurd (h2.symm.trans ht) hf
    refine ⟨by simpa using hlen, Or.inr ⟨rfl, by simp [hc0]⟩, ?_, fun _ => hf⟩
    intro r hr
    rcases List.mem_or_eq_of_mem_set hr with hmem | heq
    · exact hdone r hmem
    · cases heq; rfl

theorem authInv_reach {fetched : String} (hf : fetched ≠ "") {M : Nat}
    {s1 s2 : AuthConfig} (hreach : AuthReach fetched s1 s2)
    (hinv : AuthInv fetched M s1) : AuthInv fetched M s2 := by
  induction hreach with
  | refl => exact hinv
  | tail _ hstep ih => exact authInv_step hf hstep ih

/-!
### C4 — single-flight refresh
-/

/-- C4: the locked double-check means a step taken while the cached
token is non-empty never issues a fetch; consequently when `M ≥ 2`
concurrent `GetIAMToken` calls run against a cold cache and all have
returned, exactly one `RefreshIAMToken` request was issued and every
call returned the same (fetched) token. -/
theorem getIAMToken_single_flight (fetched : String) (hf : fetched ≠ "")
    (M : Nat) (hM : 2 ≤ M) (s : AuthConfig)
    (hreach : AuthReach fetched (authInit M) s)
    (hdone : ∀ c ∈ s.callers, ∃ r, c = CallerPhase.done r) :
    (∀ s1 s2 : AuthConfig, AuthStep fetched s1 s2 → s1.token ≠ "" →
        s2.fetchCount = s1.fetchCount) ∧
      s.fetchCount = 1 ∧ ∀ c ∈ s.callers, c = CallerPhase.done fetched := by
  have hinv0 : AuthInv fetched M (authInit M) := by
    refine ⟨by simp [authInit], Or.inl ⟨rfl, rfl⟩, ?_, ?_⟩
    · intro r hr
      have := List.eq_of_mem_replicate hr
      cases this
    · rintro ⟨r, hr⟩
      have := List.eq_of_mem_replicate hr
      cases this
  have hinv := authInv_reach hf hreach hinv0
  obtain ⟨hlen, hdisj, hdoneval, hne⟩ := hinv
  constructor
  · intro s1 s2 hstep ht
    cases hstep with
    | readHit i h ht2 => rfl
    | readMiss i h ht2 => exact absurd ht2 ht
    | lockHit i h ht2 => rfl
    | lockFetch i h ht2 => exact absurd ht2 ht
  · have hnonempty : s.callers ≠ [] := by
      intro hnil
      rw [hnil] at hlen
      simp at hlen
      omega
    obtain ⟨c, hc⟩ := List.exists_mem_of_ne_nil s.callers hnonempty
    obtain ⟨r, hr⟩ := hdone c hc
    have hex : ∃ r, CallerPhase.done r ∈ s.callers := ⟨r, hr ▸ hc⟩
    have htok : s.token ≠ "" := hne hex
    have hcount : s.fetchCount = 1 := by
      rcases hdisj with ⟨h1, _⟩ | ⟨_, h2⟩
      · exact absurd h1 htok
      · exact h2
    refine ⟨hcount, ?_⟩
    intro c hc
    obtain ⟨r, hr⟩ := hdone c hc
    have : r = fetched := hdoneval r (hr ▸ hc)
    rw [hr, this]

/-- Final configuration of the concrete two-caller witness run. -/
def authWitnessFinal : AuthConfig :=
  ⟨"tok", 1, [CallerPhase.done "tok", CallerPhase.done "tok"]⟩

/-- Concrete interleaving for the witness: caller 0 reads the cold
cache, takes the lock and fetches; caller 1 then reads the cached
token. -/
theorem authWitnessReach : AuthReach "tok" (authInit 2) authWitnessFinal := by
  refine Relation.ReflTransGen.head (AuthStep.readMiss (authInit 2) 0 rfl rfl) ?_
  refine Relation.ReflTransGen.head (AuthStep.lockFetch _ 0 rfl rfl) ?_
  refine Relation.ReflTransGen.head (AuthStep.readHit _ 1 rfl (by decide)) ?_
  exact Relation.ReflTransGen.refl

/-- C4 (witness): the single-flight theorem applied to the concrete
two-caller run. -/
theorem getIAMToken_single_flight_witness :
    (∀ s1 s2 : AuthConfig, AuthStep "tok" s1 s2 → s1.token ≠ "" →
        s2.fetchCount = s1.fetchCount) ∧
      authWitnessFinal.fetchCount = 1 ∧
        ∀ c ∈ authWitnessFinal.callers, c = CallerPhase.done "tok" :=
  getIAMToken_single_flight "tok" (by decide) 2 (by decide) authWitnessFinal
    authWitnessReach
    (by
      intro c hc
      simp [authWitnessFinal] at hc
      exact ⟨"tok", hc⟩)

/-!
### C5 — the periodic refresh loop
-/

/-- The locked `refreshToken` body as a function of the cached token
and what a fetch would return: yields the new cached token, the number
of `RefreshIAMToken` calls made, and the returned value or error. -/
def refreshTokenModel (fetchResult : Except String String) (token : String) :
    String × Nat × Except String String :=
  if token ≠ "" then (token, 0, Except.ok token)
  else
    match fetchResult with
    | Except.ok t => (t, 1, Except.ok t)
    | Except.error e => (token, 1, Except.error e)

/-- One tick of `refreshTokenPeriodically`: call `refreshToken`, and on
error set `s.token = ""`.  Returns the cached token after the tick and
the number of fetches the tick issued. -/
def periodicTick (fetchResult : Except String String) (token : String) :
    String × Nat :=
  match refreshTokenModel fetchResult token with
  | (tok, n, Except.ok _) => (tok, n)
  | (_, n, Except.error _) => ("", n)

/-- C5 (code bug): a tick that fires while a token is cached issues no
fetch and keeps the old token — `refreshToken`'s double-check returns
the cached value, so the 50-minute background loop never actually
replaces a non-empty token, contrary to the claim (and to the code's
own comment that it refreshes every 50 minutes because IAM tokens are
only valid for 12 hours); the error branch that clears the cache is
reachable only when the cache was already empty, where clearing is a
no-op. -/
theorem periodicTick_keeps_stale_token :
    periodicTick (Except.ok "t2") "t1" = ("t1", 0) ∧
      periodicTick (Except.error "boom") "" = ("", 1) := by
  decide

/-!
## The dispatcher worker pool

`App.handleUpdates` (src/cmd/main.go, second revision): the update loop
spawns one goroutine per inbound command (no bound on spawning); inside
the goroutine, `workerPool <- struct{}{}` on the buffered channel
`workerPool := make(chan struct{}, workerPoolSize)` blocks until a slot
is free, the handler runs, and `defer func() { <-workerPool }()`
releases the slot unconditionally when the task ends.
-/

/-- Pool capacity `workerPoolSize = 10` (src/cmd/main.go `const` block). -/
def workerPoolSize : Nat := 10

/-- Where one spawned per-command goroutine is: blocked on (or not yet
at) the `workerPool <-` send, executing its handler, or finished (its
deferred `<-workerPool` receive has run). -/
inductive TaskPhase where
  | waiting
  | running
  | finished
deriving DecidableEq, Repr

/-- Occupancy of the `workerPool` buffered channel plus the phase of
every spawned task. -/
structure PoolConfig where
  buf : Nat
  tasks : List TaskPhase
deriving DecidableEq, Repr

/-- Tasks currently executing their handler. -/
def runningCount (tasks : List TaskPhase) : Nat :=
  tasks.countP (fun t => t == TaskPhase.running)

/-- One atomic step of the pool: `acquire` is the `workerPool <-` send
(possible only while the buffer has a free slot, i.e. `buf` below the
channel capacity `workerPoolSize`); `finish` is the task ending, with
its deferred `<-workerPool` receive running unconditionally. -/
inductive PoolStep : PoolConfig → PoolConfig → Prop
  | acquire (s : PoolConfig) (i : Nat)
      (h : s.tasks.get? i = some TaskPhase.waiting)
      (hb : s.buf < workerPoolSize) :
      PoolStep s ⟨s.buf + 1, s.tasks.set i TaskPhase.running⟩
  | finish (s : PoolConfig) (i : Nat)
      (h : s.tasks.get? i = some TaskPhase.running) :
      PoolStep s ⟨s.buf - 1, s.tasks.set i TaskPhase.finished⟩

/-- Any interleaving of pool steps. -/
def PoolReach : PoolConfig → PoolConfig → Prop := Relation.ReflTransGen PoolStep

/-- Initial pool: `M` commands spawned, none yet admitted, empty buffer. -/
def poolInit (M : Nat) : PoolConfig := ⟨0, List.replicate M TaskPhase.waiting⟩

/-- Pool invariant: tasks in their handler never exceed the channel
occupancy, which never exceeds the capacity. -/
def PoolInv (s : PoolConfig) : Prop :=
  runningCount s.tasks ≤ s.buf ∧ s.buf ≤ workerPoolSize

theorem countP_set_of_get {α : Type} (p : α → Bool) (l : List α) (i : Nat)
    (u v : α) (h : l.get? i = some u) :
    (l.set i v).countP p + (if p u then 1 else 0) =
      l.countP p + (if p v then 1 else 0) := by
  induction l generalizing i with
  | nil => simp at h
  | cons a t ih =>
    cases i with
    | zero =>
      have hu : a = u := by injection h
      subst hu
      simp only [List.set, List.countP_cons]
      omega
    | succ n =>
      have hn : t.get? n = some u := h
      have := ih n hn
      simp only [List.set, List.countP_cons]
      omega

theorem poolInv_step {s1 s2 : PoolConfig} (hstep : PoolStep s1 s2)
    (hinv : PoolInv s1) : PoolInv s2 := by
  obtain ⟨hrun, hcap⟩ := hinv
  have hrc : List.countP (fun t => t == TaskPhase.running) s1.tasks ≤ s1.buf := hrun
  cases hstep with
  | acquire i h hb =>
    have hcount := countP_set_of_get (fun t => t == TaskPhase.running)
      s1.tasks i TaskPhase.waiting TaskPhase.running h
    simp at hcount
    constructor
    · show List.countP (fun t => t == TaskPhase.running)
          (s1.tasks.set i TaskPhase.running) ≤ s1.buf + 1
      omega
    · show s1.buf + 1 ≤ workerPoolSize
      omega
  | finish i h =>
    have hcount := countP_set_of_get (fun t => t == TaskPhase.running)
      s1.tasks i TaskPhase.running TaskPhase.finished h
    simp at hcount
    constructor
    · show List.countP (fun t => t == TaskPhase.running)
          (s1.tasks.set i TaskPhase.finished) ≤ s1.buf - 1
      omega
    · show s1.buf - 1 ≤ workerPoolSize
      omega

theorem poolInv_reach {s1 s2 : PoolConfig} (hreach : PoolReach s1 s2)
    (hinv : PoolInv s1) : PoolInv s2 := by
  induction hreach with
  | refl => exact hinv
  | tail _ hstep ih => exact poolInv_step hstep ih

/-!
### C6 — the admission bound
-/

/-- C6: in every configuration reachable from an `M`-command start, at
most `workerPoolSize = 10` tasks are executing their handler; when the
pool is at capacity the only possible step is a release (an admission
cannot fire, so the 11th admission stays blocked until some task's
unconditional deferred release runs); and whenever the pool is below
capacity a blocked admission can proceed. -/
theorem handleUpdates_admission_bound (M : Nat) (s : PoolConfig)
    (hreach : PoolReach (poolInit M) s) :
    runningCount s.tasks ≤ workerPoolSize ∧
      (s.buf = workerPoolSize → ∀ s2, PoolStep s s2 → s2.buf + 1 = s.buf) ∧
      (s.buf < workerPoolSize → ∀ i, s.tasks.get? i = some TaskPhase.waiting →
        PoolStep s ⟨s.buf + 1, s.tasks.set i TaskPhase.running⟩) := by
  have hinv0 : PoolInv (poolInit M) := by
    have hz : runningCount (poolInit M).tasks = 0 := by
      unfold runningCount poolInit
      rw [List.countP_eq_zero]
      intro t ht
      have heq := List.eq_of_mem_replicate ht
      subst heq
      decide
    exact ⟨by rw [hz]; exact Nat.zero_le _, by simp [poolInit, workerPoolSize]⟩
  have hinv := poolInv_reach hreach hinv0
  obtain ⟨hrun, hcap⟩ := hinv
  refine ⟨le_trans hrun hcap, ?_, ?_⟩
  · intro hfull s2 hstep
    cases hstep with
    | acquire i h hb => exact absurd hfull (by omega)
    | finish i h =>
      show s.buf - 1 + 1 = s.buf
      rw [hfull]
      decide
  · intro hroom i h
    exact PoolStep.acquire s i h hroom

/-- Reachable one-step witness configuration: the first of two spawned
commands has been admitted. -/
def poolWitnessState : PoolConfig := ⟨1, [TaskPhase.running, TaskPhase.waiting]⟩

theorem poolWitnessReach : PoolReach (poolInit 2) poolWitnessState := by
  refine Relation.ReflTransGen.head (PoolStep.acquire (poolInit 2) 0 rfl (by decide)) ?_
  exact Relation.ReflTransGen.refl

/-- C6 (witness): the admission-bound theorem at the concrete
one-admitted, one-waiting configuration. -/
theorem handleUpdates_admission_bound_witness :
    runningCount poolWitnessState.tasks ≤ workerPoolSize ∧
      (poolWitnessState.buf = workerPoolSize →
        ∀ s2, PoolStep poolWitnessState s2 → s2.buf + 1 = poolWitnessState.buf) ∧
      (poolWitnessState.buf < workerPoolSize →
        ∀ i, poolWitnessState.tasks.get? i = some TaskPhase.waiting →
          PoolStep poolWitnessState
            ⟨poolWitnessState.buf + 1,
              poolWitnessState.tasks.set i TaskPhase.running⟩) :=
  handleUpdates_admission_bound 2 poolWitnessState poolWitnessReach

/-!
## The per-command task boundary

The goroutine body spawned for each command in `App.handleUpdates`
(src/cmd/main.go, second revision): it defers the `<-workerPool` slot
release and `a.wg.Done()`, runs `a.handleCommand`, and sends
`fmt.Errorf("command %s failed: %w", command, err)` to `errorChan` when
the handler returns an error.  The body contains no `recover()`; in Go,
a panic in the goroutine runs the deferred calls and then propagates,
terminating the process.
-/

/-- How the handler call inside one per-command goroutine ends. -/
inductive CmdOutcome where
  | ok
  | fails (e : String)
  | panics (p : String)
deriving DecidableEq, Repr

/-- Everything a finished task exposes: the error it reported on
`errorChan` (if any), whether its deferred slot release and
`wg.Done()` ran, and the panic value escaping the task boundary
(if any). -/
structure TaskEffects where
  reportedError : Option String
  slotReleased : Bool
  wgDone : Bool
  escapedPanic : Option String
deriving DecidableEq, Repr

/-- The per-command goroutine body as a function of how its handler
call ends.  On an error it reports through `errorChan`; on a panic the
deferred releases run during unwinding but, with no `recover()` in the
body, the panic escapes. -/
def runCommandTask (command : String) (outcome : CmdOutcome) : TaskEffects :=
  match outcome with
  | CmdOutcome.ok => ⟨none, true, true, none⟩
  | CmdOutcome.fails e =>
      ⟨some ("command " ++ command ++ " failed: " ++ e), true, true, none⟩
  | CmdOutcome.panics p => ⟨none, true, true, some p⟩

/-!
### C7 — panic containment
-/

/-- C7 (counterexample): a panic in the handler of the `meme` command is
not converted into a reported error — it escapes the task boundary
(terminating the Go process), so the claim that a task panic is
recovered and never propagated is false. -/
theorem runCommandTask_panic_escapes :
    (runCommandTask "meme" (CmdOutcome.panics "boom")).escapedPanic =
        some "boom" ∧
      (runCommandTask "meme" (CmdOutcome.panics "boom")).reportedError =
        none := by
  decide

/-- C7 (amended): the per-command task installs no `recover()`: a panic
raised inside it is NOT recovered at the task boundary and escapes
(terminating the process, including the dispatcher loop and sibling
tasks); the deferred admission-slot release and `wg.Done()` still run
during unwinding, and no error is reported for the panicking task. -/
theorem runCommandTask_panic_not_recovered (command p : String) :
    runCommandTask command (CmdOutcome.panics p) =
      ⟨none, true, true, some p⟩ := by
  rfl

/-!
## Stopping the bot transport

`BotServiceImpl.Stop` (src/internal/service/bot_service.go): it closes
`s.stopChan` whenever the field is non-nil (the field is never set back
to nil and there is no `sync.Once` guard), then calls
`s.Bot.StopReceivingUpdates()` when `s.Bot` is non-nil.  In Go,
`close` of an already-closed channel panics.
-/

/-- Observable state of a `BotServiceImpl` for `Stop`: nil-ness of
`stopChan` and `Bot`, whether `stopChan` has been closed, and whether
`StopReceivingUpdates` has been called. -/
structure BotState where
  stopChanNil : Bool
  stopChanClosed : Bool
  botNil : Bool
  receivingStopped : Bool
deriving DecidableEq, Repr

/-- State produced by `NewBotService`: `stopChan: make(chan struct{})`
(non-nil, open) and a non-nil `Bot`. -/
def newBotState : BotState := ⟨false, false, false, false⟩

/-- One call of `Stop`; `Except.error` models a Go panic. -/
def botStop (s : BotState) : Except String BotState :=
  if s.stopChanNil = false then
    if s.stopChanClosed then Except.error "close of closed channel"
    else
      let s1 : BotState := { s with stopChanClosed := true }
      Except.ok
        (if s1.botNil = false then { s1 with receivingStopped := true } else s1)
  else
    Except.ok
      (if s.botNil = false then { s with receivingStopped := true } else s)

/-- Two successive calls of `Stop` (the second runs only if the first
did not panic). -/
def botStopTwice (s : BotState) : Except String BotState :=
  (botStop s).bind botStop

/-!
### C8 — idempotent stop
-/

/-- C8 (counterexample): calling `Stop` twice on a freshly constructed
service panics on the second call — `close(s.stopChan)` is guarded only
by a nil check, the field stays non-nil after the first close, and
closing a closed channel panics in Go. -/
theorem botStopTwice_panics_from_fresh :
    botStopTwice newBotState = Except.error "close of closed channel" := by
  rfl

/-- C8 (amended): from any state whose stop channel is non-nil and not
yet closed (as after `NewBotService`), the first `Stop` succeeds and
closes the stop channel, but a second `Stop` panics with a double
close: `Stop` is safe called exactly once, not idempotent. -/
theorem botStop_once_ok_twice_panics (s : BotState)
    (hnil : s.stopChanNil = false) (hopen : s.stopChanClosed = false) :
    (∃ s1, botStop s = Except.ok s1 ∧ s1.stopChanClosed = true) ∧
      botStopTwice s = Except.error "close of closed channel" := by
  constructor
  · cases hb : s.botNil with
    | false =>
      refine ⟨{ s with stopChanClosed := true, receivingStopped := true }, ?_, rfl⟩
      simp [botStop, hnil, hopen, hb]
    | true =>
      refine ⟨{ s with stopChanClosed := true }, ?_, rfl⟩
      simp [botStop, hnil, hopen, hb]
  · cases hb : s.botNil <;>
      simp [botStopTwice, botStop, hnil, hopen, hb, Except.bind]

/-- C8 (witness): the amended statement at the freshly constructed
state. -/
theorem botStop_once_ok_twice_panics_witness :
    (∃ s1, botStop newBotState = Except.ok s1 ∧ s1.stopChanClosed = true) ∧
      botStopTwice newBotState = Except.error "close of closed channel" :=
  botStop_once_ok_twice_panics newBotState rfl rfl

/-!
## Shutdown

`App.shutdown(ctx)` (src/cmd/main.go, second revision): stops the bot,
spawns a goroutine that waits on `a.wg.Wait()` and closes `done`, then
selects between `done` (logs "All goroutines completed successfully" at
info level) and `ctx.Done()` (logs "Shutdown timed out" at error
level); `ctx` is `context.WithTimeout(Background, shutdownTimeout)`
built by `main`.  The function's return type is void.
-/

/-- Which of `shutdown`'s two select cases fires first: the `done`
close (every tracked goroutine finished) or the grace deadline. -/
inductive DrainEvent where
  | allDone
  | deadline
deriving DecidableEq, Repr

/-- The caller-visible return value of `shutdown` (void in Go, so the
unit value) paired with the log line the select emits. -/
def shutdownRun (first : DrainEvent) : Unit × String :=
  match first with
  | DrainEvent.allDone => ((), "All goroutines completed successfully")
  | DrainEvent.deadline => ((), "Shutdown timed out")

/-!
### C9 — reporting the drain outcome
-/

/-- C9 (counterexample): `shutdown` returns void, so its caller receives
exactly the same value whether all tasks drained before the grace
deadline or not — the drained/timed-out distinction is not reported to
the caller, falsifying the claimed `drained` result. -/
theorem shutdownRun_caller_cannot_distinguish :
    (shutdownRun DrainEvent.allDone).fst =
      (shutdownRun DrainEvent.deadline).fst := by
  rfl

/-- C9 (amended): `shutdown` waits until either every in-flight task
has completed or the grace deadline fires, whichever comes first, and
then returns without hanging; the outcome is not silently swallowed —
the two cases emit distinct log lines ("All goroutines completed
successfully" versus the error-level "Shutdown timed out") — but it is
reported only in the logs, not as a value to the caller (the Go
function returns void). -/
theorem shutdownRun_logs_distinguish :
    shutdownRun DrainEvent.allDone =
        ((), "All goroutines completed successfully") ∧
      shutdownRun DrainEvent.deadline = ((), "Shutdown timed out") ∧
      ("All goroutines completed successfully" : String) ≠
        "Shutdown timed out" := by
  refine ⟨rfl, rfl, ?_⟩
  decide

/-!
## The Yandex Art polling loop

`YandexArtServiceImpl.waitForImageAndGet`
(src/internal/service/yandex_art_service.go, first revision): a
`for attempt := 0; attempt < maxAttempts` loop, `maxAttempts = 60`,
over a select between `ctx.Done()` and a 5-second ticker; on a tick it
builds the status request (request-creation failure returns an error),
performs it (transport failure returns a cancellation error if
`ctx.Err() != nil`, else consumes the attempt and continues), decodes
the operation (same policy), and when `operation.Done` returns the
base64-decoded image — erroring when the image field is empty or does
not decode; exhausting the loop returns
`operation timed out after 60 attempts` with nil bytes.
-/

/-- The `operation.Response.Image` field of a completed operation:
empty, non-empty but not valid base64, or decodable to bytes. -/
inductive ImageField where
  | empty
  | undecodable
  | bytes (b : List Nat)
deriving DecidableEq, Repr

/-- What one iteration of the poll loop observes: the context done
before the tick, or a tick whose status request fails to be created,
fails in transport, fails to decode (each transient case recording
whether `ctx.Err()` was non-nil at that moment), or yields the
operation's done flag and image field. -/
inductive PollEvent where
  | ctxDone
  | newRequestError
  | requestError (ctxErr : Bool)
  | decodeError (ctxErr : Bool)
  | status (opDone : Bool) (image : ImageField)
deriving DecidableEq, Repr

/-- The value/error `waitForImageAndGet` returns, one constructor per
`return` statement of the Go function. -/
inductive PollResult where
  | image (b : List Nat)
  | cancelled
  | cancelledDuringRequest
  | cancelledDuringDecode
  | requestCreationFailed
  | noImageData
  | base64DecodeFailed
  | timedOut
deriving DecidableEq, Repr

/-- Polling attempt bound: `maxAttempts := 60` in the source
("5 minutes with 5-second intervals"). -/
def maxAttempts : Nat := 60

/-- Ticker interval of the poll loop, in seconds. -/
def pollIntervalSeconds : Nat := 5

/-- The poll loop with `n` attempts remaining, observing event `i`
next; each transient failure or not-done status consumes one attempt
and continues. -/
def pollLoop (events : Nat → PollEvent) : Nat → Nat → PollResult
  | 0, _ => PollResult.timedOut
  | n + 1, i =>
    match events i with
    | PollEvent.ctxDone => PollResult.cancelled
    | PollEvent.newRequestError => PollResult.requestCreationFailed
    | PollEvent.requestError true => PollResult.cancelledDuringRequest
    | PollEvent.requestError false => pollLoop events n (i + 1)
    | PollEvent.decodeError true => PollResult.cancelledDuringDecode
    | PollEvent.decodeError false => pollLoop events n (i + 1)
    | PollEvent.status false _ => pollLoop events n (i + 1)
    | PollEvent.status true ImageField.empty => PollResult.noImageData
    | PollEvent.status true ImageField.undecodable => PollResult.base64DecodeFailed
    | PollEvent.status true (ImageField.bytes b) => PollResult.image b

/-- The whole of `waitForImageAndGet` as a function of the events the
loop observes. -/
def waitForImageAndGet (events : Nat → PollEvent) : PollResult :=
  pollLoop events maxAttempts 0

/-- Whether an event makes the loop consume the attempt and continue
polling (the `continue` branches and a not-done status). -/
def isContinue : PollEvent → Bool
  | PollEvent.requestError false => true
  | PollEvent.decodeError false => true
  | PollEvent.status false _ => true
  | _ => false

theorem pollLoop_congr (events f2 : Nat → PollEvent) (n i : Nat)
    (h : ∀ j, i ≤ j → j < i + n → events j = f2 j) :
    pollLoop events n i = pollLoop f2 n i := by
  induction n generalizing i with
  | zero => rfl
  | succ n ih =>
    have h0 : events i = f2 i := h i (Nat.le_refl i) (by omega)
    have hrest : ∀ j, i + 1 ≤ j → j < i + 1 + n → events j = f2 j := by
      intro j hj1 hj2
      exact h j (by omega) (by omega)
    unfold pollLoop
    rw [h0]
    cases hf : f2 i with
    | ctxDone => rfl
    | newRequestError => rfl
    | requestError c => cases c <;> simp [ih (i + 1) hrest]
    | decodeError c => cases c <;> simp [ih (i + 1) hrest]
    | status d img =>
      cases d with
      | false => simpa using ih (i + 1) hrest
      | true => cases img <;> rfl

theorem pollLoop_all_continue (events : Nat → PollEvent) (n i : Nat)
    (h : ∀ j, i ≤ j → j < i + n → isContinue (events j) = true) :
    pollLoop events n i = PollResult.timedOut := by
  induction n generalizing i with
  | zero => rfl
  | succ n ih =>
    have h0 : isContinue (events i) = true := h i (Nat.le_refl i) (by omega)
    have hrest : ∀ j, i + 1 ≤ j → j < i + 1 + n → isContinue (events j) = true := by
      intro j hj1 hj2
      exact h j (by omega) (by omega)
    unfold pollLoop
    cases hf : events i with
    | ctxDone => rw [hf] at h0; simp [isContinue] at h0
    | newRequestError => rw [hf] at h0; simp [isContinue] at h0
    | requestError c =>
      cases c with
      | false => simpa using ih (i + 1) hrest
      | true => rw [hf] at h0; simp [isContinue] at h0
    | decodeError c =>
      cases c with
      | false => simpa using ih (i + 1) hrest
      | true => rw [hf] at h0; simp [isContinue] at h0
    | status d img =>
      cases d with
      | false => simpa using ih (i + 1) hrest
      | true => rw [hf] at h0; simp [isContinue] at h0

/-- The immediate result a single poll event forces, if any: `none` for
the events on which the loop consumes the attempt and keeps polling,
`some r` for the events on which the corresponding `return` statement
fires.  Read off branch for branch from the loop body. -/
def decisiveResult : PollEvent → Option PollResult
  | PollEvent.ctxDone => some PollResult.cancelled
  | PollEvent.newRequestError => some PollResult.requestCreationFailed
  | PollEvent.requestError true => some PollResult.cancelledDuringRequest
  | PollEvent.requestError false => none
  | PollEvent.decodeError true => some PollResult.cancelledDuringDecode
  | PollEvent.decodeError false => none
  | PollEvent.status false _ => none
  | PollEvent.status true ImageField.empty => some PollResult.noImageData
  | PollEvent.status true ImageField.undecodable =>
      some PollResult.base64DecodeFailed
  | PollEvent.status true (ImageField.bytes b) => some (PollResult.image b)

theorem pollLoop_skip_continues (events : Nat → PollEvent) (n i k : Nat)
    (hik : i ≤ k) (hk : k < i + n)
    (hcont : ∀ j, i ≤ j → j < k → isContinue (events j) = true) :
    pollLoop events n i = pollLoop events (n - (k - i)) k := by
  induction n generalizing i with
  | zero => omega
  | succ n ih =>
    rcases Nat.eq_or_lt_of_le hik with heq | hlt
    · subst heq
      simp
    · have h0 : isContinue (events i) = true := hcont i (Nat.le_refl i) hlt
      have hstep : pollLoop events (n + 1) i = pollLoop events n (i + 1) := by
        conv_lhs => unfold pollLoop
        cases hf : events i with
        | ctxDone => rw [hf] at h0; simp [isContinue] at h0
        | newRequestError => rw [hf] at h0; simp [isContinue] at h0
        | requestError c =>
          cases c with
          | false => rfl
          | true => rw [hf] at h0; simp [isContinue] at h0
        | decodeError c =>
          cases c with
          | false => rfl
          | true => rw [hf] at h0; simp [isContinue] at h0
        | status d img =>
          cases d with
          | false => rfl
          | true => rw [hf] at h0; simp [isContinue] at h0
      rw [hstep]
      have ihres := ih (i + 1) hlt (by omega)
        (fun j hj1 hj2 => hcont j (by omega) hj2)
      rw [ihres]
      congr 1
      omega

theorem pollLoop_first_decisive (events : Nat → PollEvent) (n i k : Nat)
    (r : PollResult) (hik : i ≤ k) (hk : k < i + n)
    (hcont : ∀ j, i ≤ j → j < k → isContinue (events j) = true)
    (hr : decisiveResult (events k) = some r) :
    pollLoop events n i = r := by
  rw [pollLoop_skip_continues events n i k hik hk hcont]
  obtain ⟨m, hm⟩ : ∃ m, n - (k - i) = m + 1 := ⟨n - (k - i) - 1, by omega⟩
  rw [hm]
  unfold pollLoop
  cases hf : events k with
  | ctxDone => rw [hf] at hr; simp [decisiveResult] at hr; rw [← hr]
  | newRequestError => rw [hf] at hr; simp [decisiveResult] at hr; rw [← hr]
  | requestError c =>
    cases c with
    | false => rw [hf] at hr; simp [decisiveResult] at hr
    | true => rw [hf] at hr; simp [decisiveResult] at hr; rw [← hr]
  | decodeError c =>
    cases c with
    | false => rw [hf] at hr; simp [decisiveResult] at hr
    | true => rw [hf] at hr; simp [decisiveResult] at hr; rw [← hr]
  | status d img =>
    cases d with
    | false => rw [hf] at hr; simp [decisiveResult] at hr
    | true =>
      cases img with
      | empty => rw [hf] at hr; simp [decisiveResult] at hr; rw [← hr]
      | undecodable => rw [hf] at hr; simp [decisiveResult] at hr; rw [← hr]
      | bytes b => rw [hf] at hr; simp [decisiveResult] at hr; rw [← hr]

/-!
### C10 — termination and outcomes of the poll loop
-/

/-- C10: the poll loop performs at most `maxAttempts = 60` attempts —
its result depends only on the first 60 observed events — and it
terminates with the claimed outcome in each case: `timedOut` (with no
bytes: the `image` constructor is the only one carrying bytes) when all
60 attempts are consumed by transient failures or not-done statuses;
and whenever the first decisive event occurs at any attempt
`k < 60` — every earlier attempt having been consumed by a transient
failure or a not-done status — the loop returns that event's outcome:
a cancellation error as soon as the context is done, the decoded bytes
when the operation reports done with image data, and an error when the
operation completes with an empty or undecodable image field. -/
theorem waitForImageAndGet_terminates_with_claimed_outcomes :
    maxAttempts = 60 ∧
      (∀ events f2 : Nat → PollEvent,
        (∀ i, i < maxAttempts → events i = f2 i) →
          waitForImageAndGet events = waitForImageAndGet f2) ∧
      (∀ events : Nat → PollEvent,
        (∀ i, i < maxAttempts → isContinue (events i) = true) →
          waitForImageAndGet events = PollResult.timedOut) ∧
      (∀ (events : Nat → PollEvent) (k : Nat) (r : PollResult),
        k < maxAttempts → (∀ j, j < k → isContinue (events j) = true) →
          decisiveResult (events k) = some r →
            waitForImageAndGet events = r) ∧
      (∀ (events : Nat → PollEvent) (k : Nat),
        k < maxAttempts → (∀ j, j < k → isContinue (events j) = true) →
          events k = PollEvent.ctxDone →
            waitForImageAndGet events = PollResult.cancelled) ∧
      (∀ (events : Nat → PollEvent) (k : Nat) (b : List Nat),
        k < maxAttempts → (∀ j, j < k → isContinue (events j) = true) →
          events k = PollEvent.status true (ImageField.bytes b) →
            waitForImageAndGet events = PollResult.image b) ∧
      (∀ (events : Nat → PollEvent) (k : Nat),
        k < maxAttempts → (∀ j, j < k → isContinue (events j) = true) →
          events k = PollEvent.status true ImageField.empty →
            waitForImageAndGet events = PollResult.noImageData) ∧
      (∀ (events : Nat → PollEvent) (k : Nat),
        k < maxAttempts → (∀ j, j < k → isContinue (events j) = true) →
          events k = PollEvent.status true ImageField.undecodable →
            waitForImageAndGet events = PollResult.base64DecodeFailed) := by
  have hgen : ∀ (events : Nat → PollEvent) (k : Nat) (r : PollResult),
      k < maxAttempts → (∀ j, j < k → isContinue (events j) = true) →
        decisiveResult (events k) = some r → waitForImageAndGet events = r := by
    intro events k r hk hcont hr
    unfold waitForImageAndGet
    exact pollLoop_first_decisive events maxAttempts 0 k r (Nat.zero_le k)
      (by omega) (fun j hj1 hj2 => hcont j hj2) hr
  refine ⟨rfl, ?_, ?_, hgen, ?_, ?_, ?_, ?_⟩
  · intro events f2 h
    unfold waitForImageAndGet
    exact pollLoop_congr events f2 maxAttempts 0 (fun j hj1 hj2 => h j (by omega))
  · intro events h
    unfold waitForImageAndGet
    exact pollLoop_all_continue events maxAttempts 0 (fun j hj1 hj2 => h j (by omega))
  · intro events k hk hcont hek
    exact hgen events k PollResult.cancelled hk hcont (by rw [hek]; rfl)
  · intro events k b hk hcont hek
    exact hgen events k (PollResult.image b) hk hcont (by rw [hek]; rfl)
  · intro events k hk hcont hek
    exact hgen events k PollResult.noImageData hk hcont (by rw [hek]; rfl)
  · intro events k hk hcont hek
    exact hgen events k PollResult.base64DecodeFailed hk hcont (by rw [hek]; rfl)

end MemeBot
